import Mathlib

/-!
Verification development for the blueprint-agent repository.

The backend (src/backend/server.js) exposes three endpoints, /agent/start,
/agent/message and /agent/finalize, over an in-memory session map, a text
normalizer `cleanText`, a Groq completion wrapper `callGroqAI`, and a
PDF renderer (`drawMarkdown` + `createPDFBuffer`).  The repository also
contains two earlier server variants (src/unnamed/part_000 with a
line-classifying `createPDF`, and src/unnamed/part_001 whose finalize
handler checks for an empty blueprint).  All of these are embedded below
as executable Lean functions; the external Groq response is passed in as
an explicit `Option String` oracle (`none` models a network failure or a
missing content field, exactly the cases the code maps to `null`).
-/

namespace BlueprintAgent

/-! ## Text normalizer (`cleanText`, src/backend/server.js lines 40-43) -/

/-- Whitespace class used by JavaScript `String.prototype.trim` and the
regex class `\s`, restricted to the ASCII whitespace characters (the real
class also contains some Unicode spaces, which no string in this
development uses). -/
def isWs (c : Char) : Bool :=
  c = ' ' || c = '\t' || c = '\n' || c = '\r' || c = '\x0b' || c = '\x0c'

/-- Model of the `he` library's `decode`: a single left-to-right pass that
replaces HTML character references by the characters they denote and leaves
everything else (including an `&` that starts no recognised reference)
in place.  Restricted to a representative reference set; the real library
knows the full HTML table but performs the same single pass, and no string
in this development uses a reference outside this set. -/
def decodeChars : List Char → List Char
  | [] => []
  | '&' :: 'a' :: 'm' :: 'p' :: ';' :: rest => '&' :: decodeChars rest
  | '&' :: 'l' :: 't' :: ';' :: rest => '<' :: decodeChars rest
  | '&' :: 'g' :: 't' :: ';' :: rest => '>' :: decodeChars rest
  | '&' :: 'q' :: 'u' :: 'o' :: 't' :: ';' :: rest => '"' :: decodeChars rest
  | '&' :: '#' :: '3' :: '9' :: ';' :: rest => '\x27' :: decodeChars rest
  | c :: rest => c :: decodeChars rest

/-- The three character-class replacements of `cleanText`:
`/[’‘]/g → '`, `/[“”]/g → "`, `/[•–—]/g → -`. -/
def replaceChar (c : Char) : Char :=
  if c = '’' || c = '‘' then '\x27'
  else if c = '“' || c = '”' then '"'
  else if c = '•' || c = '–' || c = '—' then '-'
  else c

/-- Drop trailing whitespace (the right half of `trim`). -/
def dropTrailWs : List Char → List Char
  | [] => []
  | c :: rest =>
    match dropTrailWs rest with
    | [] => if isWs c then [] else [c]
    | r => c :: r

/-- JavaScript `String.prototype.trim`: drop leading and trailing
whitespace. -/
def trimChars (l : List Char) : List Char :=
  dropTrailWs (l.dropWhile isWs)

/-- `cleanText` (src/backend/server.js lines 40-43): decode HTML entities,
apply the three character replacements, then trim.  `raw || ""` in the
source only guards against a non-string argument, which the embedding's
type already excludes. -/
def cleanText (raw : String) : String :=
  ⟨trimChars ((decodeChars raw.data).map replaceChar)⟩

example : cleanText "  hello  " = "hello" := by decide
example : cleanText "&amp;amp;" = "&amp;" := by decide
example : cleanText "&amp;" = "&" := by decide
example : cleanText "a – b" = "a - b" := by decide
example : (cleanText "‘x’").data = ['\x27', 'x', '\x27'] := by decide
example : cleanText "**Plan**\n- Hero section\n- Menu page"
    = "**Plan**\n- Hero section\n- Menu page" := by decide

/-! ## AI gateway (`callGroqAI`, src/backend/server.js lines 46-68)

The network and the upstream model are an oracle: `raw = none` models a
thrown fetch error or a response without `choices[0].message.content`
(both of which the source maps to `null`); `raw = some c` models a
response whose content field holds the string `c`.  The source returns
`cleanText(content)` when `content` is truthy (a non-empty string) and
`null` otherwise. -/

def callGroqAI (raw : Option String) : Option String :=
  match raw with
  | none => none
  | some c => if c = "" then none else some (cleanText c)

/-! ## Session store and the three handlers (src/backend/server.js) -/

/-- One role-tagged chat message. -/
structure Message where
  role : String
  content : String
deriving DecidableEq, Repr

/-- A session as stored in the `sessions` object. -/
structure Session where
  idea : String
  email : String
  blueprint : String
  history : List Message
deriving DecidableEq, Repr

/-- The in-memory `sessions` object, as an association list keyed by
session id (later insertions shadow earlier ones, like reassignment of
an object property). -/
abbrev Store := List (String × Session)

/-- Property read `sessions[sessionId]`. -/
def storeGet : Store → String → Option Session
  | [], _ => none
  | (k, v) :: rest, sid => if k = sid then some v else storeGet rest sid

/-- In-place mutation of the session object bound to `sid` (JavaScript
mutates the stored object, so every alias of the key sees the update). -/
def storeSet : Store → String → Session → Store
  | [], _, _ => []
  | (k, v) :: rest, sid, s =>
    if k = sid then (k, s) :: storeSet rest sid s
    else (k, v) :: storeSet rest sid s

def systemMsg : Message :=
  ⟨"system", "You are a professional web design consultant generating detailed blueprints."⟩

def ideaMsg (idea : String) : Message :=
  ⟨"user", "Create a detailed website blueprint for this idea: \"" ++ idea ++ "\"."⟩

/-- The two-message seed history built by /agent/start. -/
def startMessages (idea : String) : List Message :=
  [systemMsg, ideaMsg idea]

inductive StartResult where
  | validationError                       -- 400 "Idea and email required"
  | generationError                       -- 500 "AI generation failed"
  | ok (sessionId blueprint : String)     -- 200 {sessionId, blueprint}
deriving DecidableEq, Repr

/-- /agent/start (src/backend/server.js lines 127-153).  `sid` stands for
the freshly generated `Date.now().toString()` and `raw` for the gateway
oracle.  `!idea || !email` is the emptiness test on the two strings. -/
def agentStart (store : Store) (idea email sid : String) (raw : Option String) :
    StartResult × Store :=
  if idea = "" ∨ email = "" then (StartResult.validationError, store)
  else
    match callGroqAI raw with
    | none => (StartResult.generationError, store)
    | some bp =>
      if bp = "" then (StartResult.generationError, store)
      else
        (StartResult.ok sid bp,
         (sid, ⟨idea, email, bp, startMessages idea ++ [⟨"assistant", bp⟩]⟩) :: store)

inductive MsgResult where
  | invalidSession                        -- 400 "Invalid session"
  | generationError                       -- 500 "AI generation failed"
  | ok (reply : String)                   -- 200 {reply, blueprint: reply}
deriving DecidableEq, Repr

/-- /agent/message (src/backend/server.js lines 156-175).  The user
message is pushed onto the history before the gateway call, so it stays
there even when the call fails. -/
def agentMessage (store : Store) (sid msg : String) (raw : Option String) :
    MsgResult × Store :=
  if sid = "" then (MsgResult.invalidSession, store)
  else
    match storeGet store sid with
    | none => (MsgResult.invalidSession, store)
    | some s =>
      let s1 : Session := { s with history := s.history ++ [⟨"user", msg⟩] }
      match callGroqAI raw with
      | none => (MsgResult.generationError, storeSet store sid s1)
      | some reply =>
        if reply = "" then (MsgResult.generationError, storeSet store sid s1)
        else
          (MsgResult.ok reply,
           storeSet store sid
             { s1 with history := s1.history ++ [⟨"assistant", reply⟩], blueprint := reply })

/-- Collaborator invocations performed by a finalize handler. -/
inductive Effect where
  | render (text : String)                -- createPDFBuffer / createPDF call
  | send (recipient : String)             -- sendEmail call
deriving DecidableEq, Repr

inductive FinResult where
  | invalidSession                        -- 400 "Invalid session"
  | ok                                    -- 200 "Blueprint finalized and emailed!"
deriving DecidableEq, Repr

/-- /agent/finalize (src/backend/server.js lines 178-192).  The handler
renders `session.blueprint` and emails the result; it never removes or
mutates the session, and it has no empty-blueprint check. -/
def agentFinalize (store : Store) (sid : String) :
    FinResult × Store × List Effect :=
  if sid = "" then (FinResult.invalidSession, store, [])
  else
    match storeGet store sid with
    | none => (FinResult.invalidSession, store, [])
    | some s => (FinResult.ok, store, [Effect.render s.blueprint, Effect.send s.email])

inductive Fin1Result where
  | invalidSession                        -- 400 "Invalid session"
  | noBlueprint                           -- 400 "No blueprint found in session."
  | ok                                    -- 200 "Blueprint finalized and emailed!"
deriving DecidableEq, Repr

/-- /agent/finalize of the earlier server variant
(src/unnamed/part_001 lines 138-162), which rejects a session whose
blueprint is falsy before invoking the renderer or the sender. -/
def agentFinalizePart001 (store : Store) (sid : String) :
    Fin1Result × Store × List Effect :=
  if sid = "" then (Fin1Result.invalidSession, store, [])
  else
    match storeGet store sid with
    | none => (Fin1Result.invalidSession, store, [])
    | some s =>
      if s.blueprint = "" then (Fin1Result.noBlueprint, store, [])
      else (Fin1Result.ok, store, [Effect.render s.blueprint, Effect.send s.email])

/-! ## Document renderer (`drawMarkdown` / `createPDFBuffer`,
src/backend/server.js lines 72-113)

The pdfkit drawing calls are abstracted into a list of styled blocks in
the order they are drawn; each constructor records the font/style choice
of the corresponding branch and the text passed to `doc.text`. -/

inductive Block where
  | title (text : String)         -- 20pt centered "Website Blueprint" header
  | discountLine (text : String)  -- 12pt discount line
  | bold (text : String)          -- Helvetica-Bold, for a `**...**` unit
  | bullet (item : String)        -- Helvetica, drawn as "• " ++ item
  | heading (text : String)       -- Helvetica-Bold, for a `#`-prefixed unit
  | para (text : String)          -- Helvetica plain paragraph
  | cta                           -- centered call-to-action trailer
deriving DecidableEq, Repr

/-- `l` begins with the two characters `a b`. -/
def startsWith2 (a b : Char) : List Char → Bool
  | x :: y :: _ => x = a && y = b
  | _ => false

/-- `p.startsWith("**") && p.endsWith("**")` (ends-with tested on the
reversed list; `"**"` reversed is itself). -/
def boldWrapped (l : List Char) : Bool :=
  startsWith2 '*' '*' l && startsWith2 '*' '*' l.reverse

/-- `p.replace(/\*\*/g, "")`: remove every non-overlapping occurrence of
`**`, scanning left to right. -/
def stripBold : List Char → List Char
  | '*' :: '*' :: rest => stripBold rest
  | c :: rest => c :: stripBold rest
  | [] => []

/-- `p.replace(/^#+\s*/, "")`: drop the leading run of `#` and any
whitespace after it. -/
def stripHeadingMarks (l : List Char) : List Char :=
  (l.dropWhile (· = '#')).dropWhile isWs

/-- The branch cascade of `drawMarkdown` applied to one trimmed
non-empty unit. -/
def classifyUnit (l : List Char) : Block :=
  if boldWrapped l then Block.bold ⟨stripBold l⟩
  else if startsWith2 '-' ' ' l || startsWith2 '*' ' ' l then Block.bullet ⟨l.drop 2⟩
  else
    match l with
    | '#' :: _ => Block.heading ⟨stripHeadingMarks l⟩
    | _ => Block.para ⟨l⟩

/-- Split at newline characters.  The source splits on `/\n+/`; splitting
at every `'\n'` instead yields extra empty pieces inside a newline run,
and every empty piece is discarded after trimming exactly as in the
source's `if (!p) return`, so the produced block list is identical. -/
def splitNl : List Char → List (List Char)
  | [] => [[]]
  | '\n' :: rest => [] :: splitNl rest
  | c :: rest =>
    match splitNl rest with
    | [] => [[c]]
    | piece :: pieces => (c :: piece) :: pieces

/-- `drawMarkdown` (src/backend/server.js lines 72-89): split the text,
trim each unit, skip empties, classify the rest in order. -/
def drawMarkdown (markdown : String) : List Block :=
  (splitNl markdown.data).filterMap fun piece =>
    let q := trimChars piece
    if q = [] then none else some (classifyUnit q)

/-- `createPDFBuffer` (src/backend/server.js lines 92-113), as the
sequence of drawn blocks: fixed title, discount line (percentage from
configuration, default "25"), the classified body, fixed trailer. -/
def createPDFBuffer (discount : String) (text : String) : List Block :=
  Block.title "Website Blueprint"
    :: Block.discountLine ("Discount: " ++ discount ++ "% off your next project")
    :: (drawMarkdown text ++ [Block.cta])

/-! ## Line classifier of the earlier renderer
(`createPDF`, src/unnamed/part_000 lines 81-130) -/

inductive Block000 where
  | blank                         -- empty line: doc.moveDown()
  | headingU (text : String)      -- 14pt underlined heading
  | numbered (text : String)      -- 11pt, indent 10, text as-is
  | bulleted (text : String)      -- 11pt, indent 20, marker replaced by "• "
  | plain (text : String)         -- 11pt left-aligned paragraph
deriving DecidableEq, Repr

/-- Full anchored match of `c+\.` : one or more copies of `c` then a
final period. -/
def starDot (c : Char) : List Char → Bool
  | [] => false
  | [x] => x = '.'
  | x :: xs => x = c && starDot c xs

def plusDot (c : Char) : List Char → Bool
  | [] => false
  | x :: xs => x = c && starDot c xs

def isUpperAZ (c : Char) : Bool := 'A' ≤ c && c ≤ 'Z'

def isAlphaOrWs (c : Char) : Bool :=
  ('A' ≤ c && c ≤ 'Z') || ('a' ≤ c && c ≤ 'z') || isWs c

/-- The heading test of part_000:
`/^(I+\.|II+\.|III+\.|IV+\.|V+\.|[A-Z][A-Za-z\s]+)$/.test(line)`.
Each alternative is an anchored full match. -/
def isHeading000 (l : List Char) : Bool :=
  plusDot 'I' l
  || (match l with | 'I' :: rest => plusDot 'I' rest | _ => false)
  || (match l with | 'I' :: 'I' :: rest => plusDot 'I' rest | _ => false)
  || (match l with | 'I' :: rest => plusDot 'V' rest | _ => false)
  || plusDot 'V' l
  || (match l with
      | x :: xs => isUpperAZ x && !xs.isEmpty && xs.all isAlphaOrWs
      | [] => false)

/-- `/^\d+\./.test(line)`: after the first digit, skip digits until a
period is found. -/
def numTail : List Char → Bool
  | [] => false
  | x :: xs => if x = '.' then true else x.isDigit && numTail xs

def startsNumbered : List Char → Bool
  | [] => false
  | x :: xs => x.isDigit && numTail xs

/-- `/^-\s/.test(line) || /^\*/.test(line)`. -/
def isBullet000 (l : List Char) : Bool :=
  (match l with | '-' :: c :: _ => isWs c | _ => false)
  || (match l with | '*' :: _ => true | _ => false)

/-- `line.replace(/^[-*]\s/, "• ")`: only rewrites when the marker is
followed by a whitespace character. -/
def bulletReplace000 (l : List Char) : List Char :=
  match l with
  | m :: c :: rest =>
    if (m = '-' || m = '*') && isWs c then '•' :: ' ' :: rest else l
  | _ => l

/-- The per-line branch cascade of `createPDF`
(src/unnamed/part_000 lines 99-124): trim, blank test, heading test,
numbered test, bullet test, else plain paragraph. -/
def classifyLine000 (rawLine : String) : Block000 :=
  let l := trimChars rawLine.data
  if l = [] then Block000.blank
  else if isHeading000 l then Block000.headingU ⟨l⟩
  else if startsNumbered l then Block000.numbered ⟨l⟩
  else if isBullet000 l then Block000.bulleted ⟨bulletReplace000 l⟩
  else Block000.plain ⟨l⟩

example : drawMarkdown "# Title\n- item one\n- item two\nPlain line."
    = [Block.heading "Title", Block.bullet "item one",
       Block.bullet "item two", Block.para "Plain line."] := by decide
example : drawMarkdown "**Plan**\n- Hero section\n- Menu page"
    = [Block.bold "Plan", Block.bullet "Hero section",
       Block.bullet "Menu page"] := by decide
example : drawMarkdown "1. First step" = [Block.para "1. First step"] := by decide
example : classifyLine000 "1. First step" = Block000.numbered "1. First step" := by decide
example : classifyLine000 "Overview And Goals"
    = Block000.headingU "Overview And Goals" := by decide
example : classifyLine000 "III." = Block000.headingU "III." := by decide
example : classifyLine000 "- item" = Block000.bulleted "• item" := by decide


example :
    (agentStart [] "bakery site" "a@b.com" "1" (some "plan")).1
      = StartResult.ok "1" "plan" := by decide
example :
    (agentStart [] "bakery site" "a@b.com" "1" none) = (StartResult.generationError, []) := by
  decide
example :
    (agentMessage [] "absent" "hi" (some "x")).1 = MsgResult.invalidSession := by decide

/-! ## Lemmas about the normalizer -/

theorem replaceChar_replaceChar (c : Char) :
    replaceChar (replaceChar c) = replaceChar c := by
  unfold replaceChar
  split
  · decide
  · split
    · decide
    · split
      · decide
      · simp_all

theorem replaceChar_ne_amp {c : Char} (h : c ≠ '&') : replaceChar c ≠ '&' := by
  unfold replaceChar
  split
  · decide
  · split
    · decide
    · split
      · decide
      · exact h

set_option maxHeartbeats 1000000 in
theorem decodeChars_cons_ne {c : Char} (hc : c ≠ '&') (rest : List Char) :
    decodeChars (c :: rest) = c :: decodeChars rest := by
  conv_lhs => rw [decodeChars.eq_def]
  split
  all_goals first
    | rfl
    | (exact absurd rfl hc)
    | (rename_i heq; exact List.noConfusion heq)
    | (rename_i heq
       simp only [List.cons.injEq] at heq
       exact absurd heq.1 hc)
    | (rename_i heq
       simp only [List.cons.injEq] at heq
       rw [heq.1, heq.2])

theorem decodeChars_of_no_amp : ∀ l : List Char, '&' ∉ l → decodeChars l = l
  | [], _ => rfl
  | c :: rest, h => by
    have hc : c ≠ '&' := fun hq => h (hq ▸ List.mem_cons_self c rest)
    have hrest : '&' ∉ rest := fun hm => h (List.mem_cons_of_mem c hm)
    rw [decodeChars_cons_ne hc, decodeChars_of_no_amp rest hrest]

theorem mem_of_mem_dropWhile {p : Char → Bool} :
    ∀ {l : List Char} {c : Char}, c ∈ l.dropWhile p → c ∈ l
  | [], _, h => by simp [List.dropWhile] at h
  | x :: xs, c, h => by
    by_cases hx : p x
    · simp only [List.dropWhile, hx] at h
      exact List.mem_cons_of_mem x (mem_of_mem_dropWhile h)
    · simp only [List.dropWhile, hx] at h
      exact h

theorem mem_of_mem_dropTrailWs :
    ∀ {l : List Char} {c : Char}, c ∈ dropTrailWs l → c ∈ l
  | [], _, h => by simp [dropTrailWs] at h
  | x :: xs, c, h => by
    unfold dropTrailWs at h
    rcases hr : dropTrailWs xs with _ | ⟨y, ys⟩
    · rw [hr] at h
      by_cases hx : isWs x
      · simp [hx] at h
      · simp [hx] at h
        simp [h]
    · rw [hr] at h
      rcases List.mem_cons.mp h with h1 | h2
      · simp [h1]
      · exact List.mem_cons_of_mem x (mem_of_mem_dropTrailWs (hr ▸ h2))

theorem mem_of_mem_trimChars {l : List Char} {c : Char} (h : c ∈ trimChars l) :
    c ∈ l :=
  mem_of_mem_dropWhile (mem_of_mem_dropTrailWs h)

theorem dropWhile_dropWhile (p : Char → Bool) :
    ∀ l : List Char, (l.dropWhile p).dropWhile p = l.dropWhile p
  | [] => rfl
  | x :: xs => by
    by_cases hx : p x
    · simp only [List.dropWhile, hx]
      exact dropWhile_dropWhile p xs
    · simp only [List.dropWhile, hx]

theorem dropTrailWs_cons (c : Char) (rest : List Char) :
    dropTrailWs (c :: rest) =
      match dropTrailWs rest with
      | [] => if isWs c then [] else [c]
      | r => c :: r := rfl

theorem dropTrailWs_dropTrailWs :
    ∀ l : List Char, dropTrailWs (dropTrailWs l) = dropTrailWs l
  | [] => rfl
  | x :: xs => by
    have ih := dropTrailWs_dropTrailWs xs
    rw [dropTrailWs_cons x xs]
    rcases hr : dropTrailWs xs with _ | ⟨y, ys⟩
    · by_cases hx : isWs x
      · simp [hx, dropTrailWs]
      · simp [hx, dropTrailWs_cons, dropTrailWs]
    · rw [hr] at ih
      show dropTrailWs (x :: y :: ys) = x :: y :: ys
      rw [dropTrailWs_cons x (y :: ys), ih]

/-- `dropTrailWs` on a non-empty list returns either `[]` or a list with
the same head. -/
theorem dropTrailWs_head (x : Char) (xs : List Char) :
    dropTrailWs (x :: xs) = [] ∨ ∃ r, dropTrailWs (x :: xs) = x :: r := by
  unfold dropTrailWs
  rcases dropTrailWs xs with _ | ⟨y, ys⟩
  · by_cases hx : isWs x
    · exact Or.inl (by simp [hx])
    · exact Or.inr ⟨[], by simp [hx]⟩
  · exact Or.inr ⟨y :: ys, rfl⟩

theorem head_dropWhile_not {p : Char → Bool} :
    ∀ {l : List Char} {a : Char} {r : List Char}, l.dropWhile p = a :: r → p a = false
  | [], a, r, h => by simp [List.dropWhile] at h
  | x :: xs, a, r, h => by
    by_cases hx : p x
    · simp only [List.dropWhile, hx] at h
      exact head_dropWhile_not h
    · simp only [List.dropWhile, hx] at h
      injection h with h1 _
      simp only [Bool.not_eq_true] at hx
      rw [← h1]
      exact hx

theorem trimChars_trimChars (l : List Char) :
    trimChars (trimChars l) = trimChars l := by
  unfold trimChars
  rcases ht : dropTrailWs (l.dropWhile isWs) with _ | ⟨a, r⟩
  · simp [List.dropWhile, dropTrailWs]
  · -- the head of the trimmed list is the head of `dropWhile isWs l`,
    -- which fails `isWs`, so the inner `dropWhile` is the identity
    have hhead : isWs a = false := by
      rcases hu : l.dropWhile isWs with _ | ⟨b, u⟩
      · rw [hu] at ht; simp [dropTrailWs] at ht
      · rw [hu] at ht
        rcases dropTrailWs_head b u with h0 | ⟨r', hr'⟩
        · rw [h0] at ht; exact absurd ht (by simp)
        · rw [hr'] at ht
          have hab : a = b := (List.cons.injEq _ _ _ _ ▸ ht).1.symm
          exact hab ▸ head_dropWhile_not hu
    have : (a :: r).dropWhile isWs = a :: r := by
      simp [List.dropWhile, hhead]
    rw [this, ← ht, dropTrailWs_dropTrailWs]

theorem map_replaceChar_of_mem {l : List Char}
    (h : ∀ c ∈ l, replaceChar c = c) : l.map replaceChar = l := by
  induction l with
  | nil => rfl
  | cons x xs ih =>
    simp only [List.map_cons]
    rw [h x (List.mem_cons_self x xs), ih fun c hc => h c (List.mem_cons_of_mem x hc)]

/-- Every character of `cleanText raw` is an output of `replaceChar`,
hence a fixed point of it. -/
theorem cleanText_chars_fixed (raw : String) :
    ∀ c ∈ (cleanText raw).data, replaceChar c = c := by
  intro c hc
  have hc' : c ∈ (decodeChars raw.data).map replaceChar :=
    mem_of_mem_trimChars hc
  rcases List.mem_map.mp hc' with ⟨a, _, ha⟩
  rw [← ha]
  exact replaceChar_replaceChar a

theorem cleanText_no_amp {raw : String} (h : '&' ∉ raw.data) :
    '&' ∉ (cleanText raw).data := by
  intro hmem
  have h1 : '&' ∈ (decodeChars raw.data).map replaceChar :=
    mem_of_mem_trimChars hmem
  rcases List.mem_map.mp h1 with ⟨a, ham, ha⟩
  have ha' : a ∈ raw.data := decodeChars_of_no_amp raw.data h ▸ ham
  exact replaceChar_ne_amp (fun hq => h (hq ▸ ha')) ha

/-- The heart of the amended idempotence claim: on an input with no
ampersand, `cleanText` is idempotent. -/
theorem cleanText_idem_of_no_amp (x : String) (h : '&' ∉ x.data) :
    cleanText (cleanText x) = cleanText x := by
  have hno : '&' ∉ (cleanText x).data := cleanText_no_amp h
  have hdec : decodeChars (cleanText x).data = (cleanText x).data :=
    decodeChars_of_no_amp _ hno
  have hmap : ((cleanText x).data).map replaceChar = (cleanText x).data :=
    map_replaceChar_of_mem (cleanText_chars_fixed x)
  show (⟨trimChars ((decodeChars (cleanText x).data).map replaceChar)⟩ : String) = cleanText x
  rw [hdec, hmap]
  show (⟨trimChars (trimChars ((decodeChars x.data).map replaceChar))⟩ : String) = cleanText x
  rw [trimChars_trimChars]
  rfl

/-! ## Lemmas about the session store -/

theorem storeGet_storeSet_self :
    ∀ {store : Store} {sid : String} {s : Session} (v : Session),
      storeGet store sid = some s → storeGet (storeSet store sid v) sid = some v
  | [], _, _, _, h => by simp [storeGet] at h
  | (k, w) :: rest, sid, s, v, h => by
    by_cases hk : k = sid
    · subst hk
      simp [storeGet, storeSet]
    · simp only [storeGet, if_neg hk] at h
      simp only [storeSet, if_neg hk, storeGet]
      exact storeGet_storeSet_self v h

theorem storeGet_storeSet_ne :
    ∀ (store : Store) {sid k : String} (v : Session), k ≠ sid →
      storeGet (storeSet store sid v) k = storeGet store k
  | [], _, _, _, _ => rfl
  | (k', w) :: rest, sid, k, v, hk => by
    simp only [storeSet]
    by_cases hks : k' = sid
    · subst hks
      rw [if_pos rfl]
      simp only [storeGet]
      rw [if_neg (fun h => hk h.symm), if_neg (fun h => hk h.symm)]
      exact storeGet_storeSet_ne rest v hk
    · rw [if_neg hks]
      simp only [storeGet]
      by_cases hkk : k' = k
      · rw [if_pos hkk, if_pos hkk]
      · rw [if_neg hkk, if_neg hkk]
        exact storeGet_storeSet_ne rest v hk

/-! ## The conversation-history invariant (claim C1)

`goodSession idea n s` says: the history of `s` is the two seed messages,
then some middle part of length `2 n`, then a final assistant message
carrying exactly the stored blueprint. -/

def goodSession (idea : String) (n : Nat) (s : Session) : Prop :=
  ∃ mid : List Message,
    s.history = startMessages idea ++ mid ++ [⟨"assistant", s.blueprint⟩]
      ∧ mid.length = 2 * n

theorem goodSession_length {idea : String} {n : Nat} {s : Session}
    (h : goodSession idea n s) : s.history.length = 3 + 2 * n := by
  obtain ⟨mid, hh, hl⟩ := h
  rw [hh]
  simp [startMessages, List.length_append, hl]
  omega

theorem goodSession_head {idea : String} {n : Nat} {s : Session}
    (h : goodSession idea n s) :
    s.history[0]? = some systemMsg ∧ s.history[1]? = some (ideaMsg idea) := by
  obtain ⟨mid, hh, _⟩ := h
  rw [hh]
  simp [startMessages]

theorem goodSession_last {idea : String} {n : Nat} {s : Session}
    (h : goodSession idea n s) :
    s.history.getLast? = some ⟨"assistant", s.blueprint⟩ := by
  obtain ⟨mid, hh, _⟩ := h
  rw [hh]
  exact List.getLast?_concat _

/-- A successful /agent/start call creates a session satisfying the
invariant at `n = 0`. -/
theorem agentStart_ok (store : Store) (idea email sid : String) (raw : Option String)
    {bp : String} (hidea : idea ≠ "") (hemail : email ≠ "")
    (hraw : callGroqAI raw = some bp) (hbp : bp ≠ "") :
    agentStart store idea email sid raw
      = (StartResult.ok sid bp,
         (sid, ⟨idea, email, bp, startMessages idea ++ [⟨"assistant", bp⟩]⟩) :: store) := by
  unfold agentStart
  rw [if_neg (by simp [hidea, hemail])]
  rw [hraw]
  simp [hbp]

theorem goodSession_start (idea email bp : String) :
    goodSession idea 0 ⟨idea, email, bp, startMessages idea ++ [⟨"assistant", bp⟩]⟩ := by
  exact ⟨[], by simp, rfl⟩

/-- The session produced by a successful /agent/message call. -/
def continueOk (s : Session) (msg reply : String) : Session :=
  { s with
    history := s.history ++ [⟨"user", msg⟩] ++ [⟨"assistant", reply⟩],
    blueprint := reply }

theorem agentMessage_ok (store : Store) (sid msg : String) {s : Session}
    (c : String) (hsid : sid ≠ "") (hs : storeGet store sid = some s)
    (hc : c ≠ "") (hcc : cleanText c ≠ "") :
    agentMessage store sid msg (some c)
      = (MsgResult.ok (cleanText c), storeSet store sid (continueOk s msg (cleanText c))) := by
  unfold agentMessage callGroqAI
  rw [if_neg hsid, hs]
  simp only [if_neg hc, if_neg hcc]
  rfl

theorem goodSession_continueOk {idea : String} {n : Nat} {s : Session}
    (h : goodSession idea n s) (msg reply : String) :
    goodSession idea (n + 1) (continueOk s msg reply) := by
  obtain ⟨mid, hh, hl⟩ := h
  refine ⟨mid ++ [⟨"assistant", s.blueprint⟩, ⟨"user", msg⟩], ?_, ?_⟩
  · show s.history ++ [⟨"user", msg⟩] ++ [⟨"assistant", reply⟩]
        = startMessages idea ++ (mid ++ [⟨"assistant", s.blueprint⟩, ⟨"user", msg⟩])
            ++ [⟨"assistant", reply⟩]
    rw [hh]
    simp
  · simp [hl]
    omega

/-! ## Reachable stores and the non-empty-blueprint invariant (claim C10) -/

/-- One public operation performed against the store, with arbitrary
request fields and an arbitrary gateway response. -/
inductive OpStep : Store → Store → Prop where
  | start (store : Store) (idea email sid : String) (raw : Option String) :
      OpStep store (agentStart store idea email sid raw).2
  | message (store : Store) (sid msg : String) (raw : Option String) :
      OpStep store (agentMessage store sid msg raw).2
  | finalize (store : Store) (sid : String) :
      OpStep store (agentFinalize store sid).2.1

/-- Stores reachable from the empty initial `sessions` object through the
three endpoints. -/
inductive ReachableStore : Store → Prop where
  | init : ReachableStore []
  | step {s t : Store} : ReachableStore s → OpStep s t → ReachableStore t

/-- Every stored session has a non-empty blueprint. -/
def storeInv (store : Store) : Prop :=
  ∀ sid s, storeGet store sid = some s → s.blueprint ≠ ""

theorem storeInv_start {store : Store} (h : storeInv store)
    (idea email sid : String) (raw : Option String) :
    storeInv (agentStart store idea email sid raw).2 := by
  unfold agentStart
  split
  · exact h
  · rcases hr : callGroqAI raw with _ | bp
    · exact h
    · by_cases hbp : bp = ""
      · simp only [hr, if_pos hbp]
        exact h
      · simp only [hr, if_neg hbp]
        intro k s hk
        simp only [storeGet] at hk
        by_cases hks : sid = k
        · rw [if_pos hks] at hk
          cases hk
          exact hbp
        · rw [if_neg hks] at hk
          exact h k s hk

theorem storeGet_storeSet_none :
    ∀ (store : Store) {k : String} (v : Session),
      storeGet store k = none → storeGet (storeSet store k v) k = none
  | [], _, _, _ => rfl
  | (k', w) :: rest, k, v, h => by
    by_cases hkk : k' = k
    · subst hkk
      simp [storeGet] at h
    · simp only [storeGet, if_neg hkk] at h
      simp only [storeSet, if_neg hkk, storeGet, if_neg hkk]
      exact storeGet_storeSet_none rest v h

theorem storeInv_storeSet {store : Store} (h : storeInv store)
    {v : Session} (sid : String) (hv : v.blueprint ≠ "") :
    storeInv (storeSet store sid v) := by
  intro k s hk
  by_cases hks : k = sid
  · subst hks
    rcases ho : storeGet store k with _ | w
    · rw [storeGet_storeSet_none store v ho] at hk
      cases hk
    · rw [storeGet_storeSet_self v ho] at hk
      cases hk
      exact hv
  · rw [storeGet_storeSet_ne store v hks] at hk
    exact h k s hk

theorem storeInv_message {store : Store} (h : storeInv store)
    (sid msg : String) (raw : Option String) :
    storeInv (agentMessage store sid msg raw).2 := by
  unfold agentMessage
  split
  · exact h
  · rcases hs : storeGet store sid with _ | s
    · exact h
    · have hsbp : s.blueprint ≠ "" := h sid s hs
      rcases hr : callGroqAI raw with _ | reply
      · exact storeInv_storeSet h sid hsbp
      · by_cases hrep : reply = ""
        · simp only [if_pos hrep]
          exact storeInv_storeSet h sid hsbp
        · simp only [if_neg hrep]
          exact storeInv_storeSet h sid hrep

theorem storeInv_finalize {store : Store} (h : storeInv store) (sid : String) :
    storeInv (agentFinalize store sid).2.1 := by
  unfold agentFinalize
  split
  · exact h
  · rcases storeGet store sid with _ | s
    · exact h
    · exact h

theorem storeInv_of_reachable {store : Store} (h : ReachableStore store) :
    storeInv store := by
  induction h with
  | init => intro sid s hk; simp [storeGet] at hk
  | step _ hstep ih =>
    cases hstep with
    | start idea email sid raw => exact storeInv_start ih idea email sid raw
    | message sid msg raw => exact storeInv_message ih sid msg raw
    | finalize sid => exact storeInv_finalize ih sid

/-- On a store satisfying the invariant, the defensive empty-blueprint
branch of part_001's finalize handler cannot fire. -/
theorem finalizePart001_no_noBlueprint {store : Store} (h : storeInv store)
    (sid : String) : (agentFinalizePart001 store sid).1 ≠ Fin1Result.noBlueprint := by
  unfold agentFinalizePart001
  split
  · simp
  · rcases hs : storeGet store sid with _ | s
    · simp
    · simp [h sid s hs]

/-- Run a sequence of /agent/message calls; each element carries the
user message and the raw gateway content for that turn. -/
def runMessages : Store → String → List (String × String) → Store
  | store, _, [] => store
  | store, sid, (msg, c) :: rest => runMessages (agentMessage store sid msg (some c)).2 sid rest

/-- After any number of successful Continue calls the invariant advances
by the number of calls. -/
theorem runMessages_good :
    ∀ (steps : List (String × String)) (store : Store) (sid idea : String) (n : Nat)
      (s : Session), sid ≠ "" → storeGet store sid = some s → goodSession idea n s →
      (∀ p ∈ steps, p.2 ≠ "" ∧ cleanText p.2 ≠ "") →
      ∃ s', storeGet (runMessages store sid steps) sid = some s'
        ∧ goodSession idea (n + steps.length) s'
  | [], store, sid, idea, n, s, _, hs, hg, _ => ⟨s, hs, by simpa using hg⟩
  | (msg, c) :: rest, store, sid, idea, n, s, hsid, hs, hg, hok => by
    have hc := hok (msg, c) (List.mem_cons_self _ _)
    have hmsg := agentMessage_ok store sid msg (s := s) c hsid hs hc.1 hc.2
    have hget : storeGet (agentMessage store sid msg (some c)).2 sid
        = some (continueOk s msg (cleanText c)) := by
      rw [hmsg]
      exact storeGet_storeSet_self _ hs
    have hgood := goodSession_continueOk hg msg (cleanText c)
    have := runMessages_good rest (agentMessage store sid msg (some c)).2 sid idea (n + 1)
      (continueOk s msg (cleanText c)) hsid hget hgood
      (fun p hp => hok p (List.mem_cons_of_mem _ hp))
    obtain ⟨s', hs', hg'⟩ := this
    exact ⟨s', by simpa [runMessages] using hs', by
      have : n + 1 + rest.length = n + (rest.length + 1) := by omega
      simpa [List.length_cons, this] using hg'⟩

/-! ## The claims -/

/-- Claim C1, counterexample: after a successful Start and `N = 0`
successful Continue calls the conversation history has length 3, not
`2 + 2 * 0 = 2` as the claim's formula demands. -/
theorem claim_C1_counterexample :
    (storeGet (agentStart [] "bakery site" "a@b.com" "1" (some "plan")).2 "1").map
        (fun s => s.history.length) = some 3
    ∧ (3 : Nat) ≠ 2 + 2 * 0 := by decide

/-- Claim C1 (amended): for every session, `history[0]` is the fixed
system instruction and `history[1]` the initial user idea prompt, and
after a successful Start followed by N successful Continue calls (no
failed ones) the history length equals `3 + 2 * N` (Start leaves three
entries, each Continue appends two) and the stored blueprint equals the
content of the last (assistant) entry. -/
theorem claim_C1_amended (store : Store) (idea email sid : String) (raw : Option String)
    (steps : List (String × String)) (bp : String)
    (hidea : idea ≠ "") (hemail : email ≠ "") (hsid : sid ≠ "")
    (hraw : callGroqAI raw = some bp) (hbp : bp ≠ "")
    (hsteps : ∀ p ∈ steps, p.2 ≠ "" ∧ cleanText p.2 ≠ "") :
    ∃ s', storeGet (runMessages (agentStart store idea email sid raw).2 sid steps) sid
        = some s'
      ∧ s'.history.length = 3 + 2 * steps.length
      ∧ s'.history[0]? = some systemMsg
      ∧ s'.history[1]? = some (ideaMsg idea)
      ∧ s'.history.getLast? = some ⟨"assistant", s'.blueprint⟩ := by
  have hstart := agentStart_ok store idea email sid raw hidea hemail hraw hbp
  have hget : storeGet (agentStart store idea email sid raw).2 sid
      = some ⟨idea, email, bp, startMessages idea ++ [⟨"assistant", bp⟩]⟩ := by
    rw [hstart]
    simp [storeGet]
  obtain ⟨s', hs', hg⟩ := runMessages_good steps _ sid idea 0 _ hsid hget
    (goodSession_start idea email bp) hsteps
  refine ⟨s', hs', ?_, (goodSession_head hg).1, (goodSession_head hg).2, goodSession_last hg⟩
  have := goodSession_length hg
  omega

/-- Claim C1 amended, witness: one successful Start followed by one
successful Continue leaves the invariant intact at `N = 1`. -/
theorem claim_C1_amended_witness :
    ∃ s', storeGet (runMessages (agentStart [] "bakery site" "a@b.com" "1"
          (some "plan")).2 "1" [("add a menu page", "v2")]) "1" = some s'
      ∧ s'.history.length = 3 + 2 * ([("add a menu page", "v2")] : List (String × String)).length
      ∧ s'.history[0]? = some systemMsg
      ∧ s'.history[1]? = some (ideaMsg "bakery site")
      ∧ s'.history.getLast? = some ⟨"assistant", s'.blueprint⟩ :=
  claim_C1_amended [] "bakery site" "a@b.com" "1" (some "plan") [("add a menu page", "v2")]
    "plan" (by decide) (by decide) (by decide) (by decide) (by decide)
    (fun p hp => by
      rw [List.mem_singleton] at hp
      subst hp
      exact ⟨by decide, by decide⟩)

/-- Claim C2: for every valid (idea, email) pair, Start either returns
the freshly generated session id paired with non-empty blueprint text
(and pushes exactly that session onto the store), or fails with
GenerationError leaving the store unchanged. -/
theorem claim_C2 (store : Store) (idea email sid : String) (raw : Option String)
    (hidea : idea ≠ "") (hemail : email ≠ "") :
    (∃ bp, bp ≠ ""
      ∧ agentStart store idea email sid raw
          = (StartResult.ok sid bp,
             (sid, ⟨idea, email, bp, startMessages idea ++ [⟨"assistant", bp⟩]⟩) :: store))
    ∨ agentStart store idea email sid raw = (StartResult.generationError, store) := by
  unfold agentStart
  rw [if_neg (by simp [hidea, hemail])]
  rcases callGroqAI raw with _ | bp
  · exact Or.inr rfl
  · by_cases hbp : bp = ""
    · exact Or.inr (by simp [hbp])
    · exact Or.inl ⟨bp, hbp, by simp [hbp]⟩

/-- Claim C2, witness: at a failing gateway the error branch is taken
with the store unchanged. -/
theorem claim_C2_witness :
    (∃ bp, bp ≠ ""
      ∧ agentStart [] "bakery site" "a@b.com" "1" none
          = (StartResult.ok "1" bp,
             [("1", ⟨"bakery site", "a@b.com", bp,
               startMessages "bakery site" ++ [⟨"assistant", bp⟩]⟩)]))
    ∨ agentStart [] "bakery site" "a@b.com" "1" none = (StartResult.generationError, []) :=
  claim_C2 [] "bakery site" "a@b.com" "1" none (by decide) (by decide)

/-- Claim C3, counterexample: the normalizer is not idempotent on the
double-encoded input `"&amp;amp;"` — the first pass decodes it to
`"&amp;"` and the second pass decodes again to `"&"`. -/
theorem claim_C3_counterexample :
    cleanText "&amp;amp;" = "&amp;"
    ∧ cleanText (cleanText "&amp;amp;") = "&"
    ∧ cleanText (cleanText "&amp;amp;") ≠ cleanText "&amp;amp;" := by decide

/-- Claim C3 (amended): the normalizer is idempotent on every input
string that contains no ampersand (so no HTML-entity material survives a
first pass); double-encoded entities are the only source of
non-idempotence. -/
theorem claim_C3_amended (x : String) (h : '&' ∉ x.data) :
    cleanText (cleanText x) = cleanText x :=
  cleanText_idem_of_no_amp x h

/-- Claim C3 amended, witness: an ampersand-free input with curly
quotes, a dash and surrounding whitespace. -/
theorem claim_C3_amended_witness :
    cleanText (cleanText " “quoted” – ‘text’ ") = cleanText " “quoted” – ‘text’ " :=
  claim_C3_amended " “quoted” – ‘text’ " (by decide)

/-- Claim C4, counterexample: the finalize handler of
src/backend/server.js has no empty-blueprint check — on a session whose
blueprint is the empty string it reports success and invokes both the
renderer (on the empty string) and the sender. -/
theorem claim_C4_counterexample :
    agentFinalize [("1", ⟨"idea", "e@x", "", []⟩)] "1"
      = (FinResult.ok, [("1", ⟨"idea", "e@x", "", []⟩)],
         [Effect.render "", Effect.send "e@x"]) := by decide

/-- Claim C4 (amended): the defensive check exists only in the earlier
finalize handler (src/unnamed/part_001): there, Finalize on an existing
session whose blueprint is the empty string fails with ValidationError
and invokes neither the renderer nor the sender; the current
src/backend/server.js handler lacks the check and proceeds to render
and send. -/
theorem claim_C4_amended (store : Store) (sid : String) (s : Session)
    (hsid : sid ≠ "") (hs : storeGet store sid = some s) (hbp : s.blueprint = "") :
    agentFinalizePart001 store sid = (Fin1Result.noBlueprint, store, []) := by
  unfold agentFinalizePart001
  rw [if_neg hsid]
  rw [hs]
  simp [hbp]

/-- Claim C4 amended, witness. -/
theorem claim_C4_amended_witness :
    agentFinalizePart001 [("1", ⟨"idea", "e@x", "", []⟩)] "1"
      = (Fin1Result.noBlueprint, [("1", ⟨"idea", "e@x", "", []⟩)], []) :=
  claim_C4_amended [("1", ⟨"idea", "e@x", "", []⟩)] "1" ⟨"idea", "e@x", "", []⟩
    (by decide) (by decide) rfl

/-- Claim C5, counterexample: the server.js finalize handler never
removes the session, so after a completed Finalize the same session id
is still accepted — a subsequent Continue succeeds instead of failing
with NotFoundError. -/
theorem claim_C5_counterexample :
    (agentFinalize (agentStart [] "idea" "e@x" "1" (some "plan")).2 "1").1 = FinResult.ok
    ∧ (agentMessage (agentFinalize (agentStart [] "idea" "e@x" "1" (some "plan")).2 "1").2.1
        "1" "more" (some "v2")).1 = MsgResult.ok "v2" := by decide

/-- Claim C5 (amended): Continue and Finalize on a session id unknown to
the store fail with NotFoundError (the 400 "Invalid session" response)
and leave the store untouched, with no renderer or sender invocation;
and Finalize never removes a session, so a previously-finalized id is
still present and later calls treat it as any live session (no call ever
crashes — every handler is a total function). -/
theorem claim_C5_amended (store other : Store) (sid sid2 msg : String)
    (raw : Option String) (h : storeGet store sid = none) :
    ((agentMessage store sid msg raw).1 = MsgResult.invalidSession
      ∧ (agentMessage store sid msg raw).2 = store)
    ∧ ((agentFinalize store sid).1 = FinResult.invalidSession
      ∧ (agentFinalize store sid).2.1 = store
      ∧ (agentFinalize store sid).2.2 = [])
    ∧ (agentFinalize other sid2).2.1 = other := by
  refine ⟨?_, ?_, ?_⟩
  · unfold agentMessage
    by_cases hsid : sid = ""
    · rw [if_pos hsid]
      exact ⟨rfl, rfl⟩
    · rw [if_neg hsid, h]
      exact ⟨rfl, rfl⟩
  · unfold agentFinalize
    by_cases hsid : sid = ""
    · rw [if_pos hsid]
      exact ⟨rfl, rfl, rfl⟩
    · rw [if_neg hsid, h]
      exact ⟨rfl, rfl, rfl⟩
  · unfold agentFinalize
    by_cases hsid2 : sid2 = ""
    · rw [if_pos hsid2]
    · rw [if_neg hsid2]
      rcases storeGet other sid2 with _ | s
      · rfl
      · rfl

/-- Claim C5 amended, witness. -/
theorem claim_C5_amended_witness :
    ((agentMessage [("a", ⟨"i", "e", "b", []⟩)] "missing" "hi" none).1
        = MsgResult.invalidSession
      ∧ (agentMessage [("a", ⟨"i", "e", "b", []⟩)] "missing" "hi" none).2
          = [("a", ⟨"i", "e", "b", []⟩)])
    ∧ ((agentFinalize [("a", ⟨"i", "e", "b", []⟩)] "missing").1
        = FinResult.invalidSession
      ∧ (agentFinalize [("a", ⟨"i", "e", "b", []⟩)] "missing").2.1
          = [("a", ⟨"i", "e", "b", []⟩)]
      ∧ (agentFinalize [("a", ⟨"i", "e", "b", []⟩)] "missing").2.2 = [])
    ∧ (agentFinalize [("a", ⟨"i", "e", "b", []⟩)] "a").2.1 = [("a", ⟨"i", "e", "b", []⟩)] :=
  claim_C5_amended [("a", ⟨"i", "e", "b", []⟩)] [("a", ⟨"i", "e", "b", []⟩)]
    "missing" "a" "hi" none (by decide)

/-- Claim C6: when the gateway call of Continue fails (no usable
content), the handler reports GenerationError, the just-appended user
message remains in the session's history — which has grown by exactly
one entry — and the stored blueprint is unchanged. -/
theorem claim_C6 (store : Store) (sid msg : String) (raw : Option String) (s : Session)
    (hsid : sid ≠ "") (hs : storeGet store sid = some s)
    (hfail : (callGroqAI raw).getD "" = "") :
    (agentMessage store sid msg raw).1 = MsgResult.generationError
    ∧ storeGet (agentMessage store sid msg raw).2 sid
        = some { s with history := s.history ++ [⟨"user", msg⟩] }
    ∧ (s.history ++ [(⟨"user", msg⟩ : Message)]).length = s.history.length + 1 := by
  have h1 : agentMessage store sid msg raw
      = (MsgResult.generationError,
         storeSet store sid { s with history := s.history ++ [⟨"user", msg⟩] }) := by
    unfold agentMessage
    rw [if_neg hsid, hs]
    rcases hr : callGroqAI raw with _ | r
    · rfl
    · rw [hr] at hfail
      simp only [Option.getD_some] at hfail
      subst hfail
      rfl
  rw [h1]
  exact ⟨rfl, storeGet_storeSet_self _ hs, by simp⟩

/-- Claim C6, witness: a gateway failure (`none`) on a one-session
store. -/
theorem claim_C6_witness :
    (agentMessage [("1", ⟨"i", "e", "plan", [⟨"system", "x"⟩]⟩)] "1" "more" none).1
        = MsgResult.generationError
    ∧ storeGet (agentMessage [("1", ⟨"i", "e", "plan", [⟨"system", "x"⟩]⟩)] "1" "more" none).2 "1"
        = some ⟨"i", "e", "plan", [⟨"system", "x"⟩, ⟨"user", "more"⟩]⟩
    ∧ (([⟨"system", "x"⟩] : List Message) ++ [(⟨"user", "more"⟩ : Message)]).length
        = ([⟨"system", "x"⟩] : List Message).length + 1 :=
  claim_C6 [("1", ⟨"i", "e", "plan", [⟨"system", "x"⟩]⟩)] "1" "more" none
    ⟨"i", "e", "plan", [⟨"system", "x"⟩]⟩ (by decide) (by decide) (by decide)

/-- Claim C7: for the body text "# Title\n- item one\n- item two\nPlain
line." the renderer produces exactly heading "Title", bullet "item one",
bullet "item two", paragraph "Plain line.", preceded by the fixed
"Website Blueprint" title block and the discount line and followed by
the fixed call-to-action trailer, in that order. -/
theorem claim_C7 (discount : String) :
    createPDFBuffer discount "# Title\n- item one\n- item two\nPlain line."
      = [Block.title "Website Blueprint",
         Block.discountLine ("Discount: " ++ discount ++ "% off your next project"),
         Block.heading "Title", Block.bullet "item one", Block.bullet "item two",
         Block.para "Plain line.", Block.cta] := by
  have hbody : drawMarkdown "# Title\n- item one\n- item two\nPlain line."
      = [Block.heading "Title", Block.bullet "item one", Block.bullet "item two",
         Block.para "Plain line."] := by decide
  unfold createPDFBuffer
  rw [hbody]
  rfl

/-- Claim C7, witness: the block sequence at the default discount
configuration value "25". -/
theorem claim_C7_witness :
    createPDFBuffer "25" "# Title\n- item one\n- item two\nPlain line."
      = [Block.title "Website Blueprint",
         Block.discountLine ("Discount: " ++ "25" ++ "% off your next project"),
         Block.heading "Title", Block.bullet "item one", Block.bullet "item two",
         Block.para "Plain line.", Block.cta] :=
  claim_C7 "25"

/-- Claim C8, counterexample: `cleanText` does not strip the bold
markers, so Start stores and returns the blueprint with the `**` intact,
not `"Plan\n- Hero section\n- Menu page"` as the claim asserts. -/
theorem claim_C8_counterexample :
    (agentStart [] "bakery site" "a@b.com" "1"
        (some "**Plan**\n- Hero section\n- Menu page")).1
      = StartResult.ok "1" "**Plan**\n- Hero section\n- Menu page"
    ∧ ("**Plan**\n- Hero section\n- Menu page" : String)
        ≠ "Plan\n- Hero section\n- Menu page" := by decide

/-- Claim C8 (amended): Start with idea "bakery site", email "a@b.com"
and a gateway completion "**Plan**\n- Hero section\n- Menu page" returns
and stores that same text unchanged (the normalizer strips no bold
markers) with a session history of length 3; the `**` markers are only
stripped later by the renderer, which classifies the first unit as a
bold heading-weight block "Plan". -/
theorem claim_C8_amended :
    agentStart [] "bakery site" "a@b.com" "1" (some "**Plan**\n- Hero section\n- Menu page")
      = (StartResult.ok "1" "**Plan**\n- Hero section\n- Menu page",
         [("1", ⟨"bakery site", "a@b.com", "**Plan**\n- Hero section\n- Menu page",
           [systemMsg, ideaMsg "bakery site",
            ⟨"assistant", "**Plan**\n- Hero section\n- Menu page"⟩]⟩)])
    ∧ (storeGet (agentStart [] "bakery site" "a@b.com" "1"
          (some "**Plan**\n- Hero section\n- Menu page")).2 "1").map
        (fun s => s.history.length) = some 3
    ∧ drawMarkdown "**Plan**\n- Hero section\n- Menu page"
        = [Block.bold "Plan", Block.bullet "Hero section", Block.bullet "Menu page"] := by
  decide

/-- Claim C9, counterexample: the renderer of src/backend/server.js
(`drawMarkdown`) has no numbered-list rule at all — a unit matching the
numbered-list pattern falls through to the final branch and is drawn as
a plain paragraph (regular font, no indent), the same styling any prose
line receives. -/
theorem claim_C9_counterexample :
    drawMarkdown "1. First step" = [Block.para "1. First step"]
    ∧ drawMarkdown "Plain prose" = [Block.para "Plain prose"] := by decide

/-- Claim C9 (amended): the numbered-list rule exists only in the
earlier renderer (`createPDF`, src/unnamed/part_000): there, every
trimmed non-empty line matching `^\d+\.` that the heading rule (the only
earlier classification rule) did not catch is styled as an indented
numbered-list block with its text left as-is; the current server.js
renderer has no such rule and styles those units as plain paragraphs. -/
theorem claim_C9_amended (line : String) (hne : trimChars line.data ≠ [])
    (hhead : isHeading000 (trimChars line.data) = false)
    (hnum : startsNumbered (trimChars line.data) = true) :
    classifyLine000 line = Block000.numbered ⟨trimChars line.data⟩ := by
  unfold classifyLine000
  rw [if_neg hne, if_neg (by simp [hhead]), if_pos hnum]

/-- Claim C9 amended, witness. -/
theorem claim_C9_amended_witness :
    classifyLine000 "1. First step" = Block000.numbered "1. First step" :=
  claim_C9_amended "1. First step" (by decide) (by decide) (by decide)

/-- Claim C10: in every store reachable through the public operations,
every stored session has a non-empty blueprint (Start only inserts a
session when the gateway returned non-empty normalized text, Continue
only overwrites the blueprint with non-empty text, Finalize never
writes), so the defensive empty-blueprint branch of the part_001
finalize handler can never fire on a reachable store. -/
theorem claim_C10 (store : Store) (h : ReachableStore store) :
    (∀ sid s, storeGet store sid = some s → s.blueprint ≠ "")
    ∧ ∀ sid, (agentFinalizePart001 store sid).1 ≠ Fin1Result.noBlueprint := by
  have hinv := storeInv_of_reachable h
  exact ⟨hinv, fun sid => finalizePart001_no_noBlueprint hinv sid⟩

/-- Claim C10, witness: the store reached by one successful Start call
never triggers the defensive branch. -/
theorem claim_C10_witness :
    (agentFinalizePart001 (agentStart [] "idea" "a@b.com" "1" (some "plan")).2 "1").1
      ≠ Fin1Result.noBlueprint :=
  (claim_C10 (agentStart [] "idea" "a@b.com" "1" (some "plan")).2
    (ReachableStore.step ReachableStore.init
      (OpStep.start [] "idea" "a@b.com" "1" (some "plan")))).2 "1"

end BlueprintAgent
